import Mathlib

/-!
# navigation_data: the SQLite people screen and the SecureStore screen

A shallow embedding of `app/(tabs)/sqlite.jsx` and `app/(tabs)/securestore.jsx`.

* The React component state (`useState`) is a record (`View`, `SecureView`).
* A handler is a function of the render it was created in (the closure `r`,
  from which it READS state) and of the current application state (to which
  its `setX` calls WRITE).
* The two platform collaborators (the embedded SQL engine and the encrypted
  key-value store) are modelled by the statements the source sends to them.
  Every call to a collaborator may fail; failures are drawn from an explicit
  fault stream carried by the world.
* WebSQL transactions run in FIFO order; a queued transaction is run to
  completion at the place where the source queues it.  The handlers never
  read a field that a later synchronous `setX` of the same callback writes,
  so the final state is the one the asynchronous schedule produces.
-/

namespace NavigationData

/-! ## JavaScript primitives -/

/-- ECMAScript `WhiteSpace` and `LineTerminator` code points, the set that
`String.prototype.trim` and the prefix-skipping step of `parseInt` remove. -/
def isJsWhiteSpace (c : Char) : Bool :=
  let n := c.toNat
  n = 9 || n = 10 || n = 11 || n = 12 || n = 13 || n = 32 || n = 160 ||
  n = 0x1680 || (0x2000 ≤ n && n ≤ 0x200A) || n = 0x2028 || n = 0x2029 ||
  n = 0x202F || n = 0x205F || n = 0x3000 || n = 0xFEFF

/-- `String.prototype.trim` on the list of characters of a string. -/
def jsTrim (s : List Char) : List Char :=
  ((s.dropWhile isJsWhiteSpace).reverse.dropWhile isJsWhiteSpace).reverse

/-- Value of a character as a digit (`0-9`, `a-z`, `A-Z`), below base 36. -/
def digitValue (c : Char) : Option Nat :=
  let n := c.toNat
  if 48 ≤ n ∧ n ≤ 57 then some (n - 48)
  else if 97 ≤ n ∧ n ≤ 122 then some (n - 97 + 10)
  else if 65 ≤ n ∧ n ≤ 90 then some (n - 65 + 10)
  else none

/-- Value of a character as a digit of radix `R`, if it is one. -/
def radixDigit (R : Nat) (c : Char) : Option Nat :=
  match digitValue c with
  | some d => if d < R then some d else none
  | none => none

/-- The longest prefix of radix-`R` digits (step 9 and 10 of `parseInt`). -/
def digitsPrefix (R : Nat) : List Char → List Nat
  | [] => []
  | c :: cs =>
    match radixDigit R c with
    | some d => d :: digitsPrefix R cs
    | none => []

/-- Sign of the trimmed input: `-1` when it starts with `-`. -/
def parseSign : List Char → Int
  | c :: _ => if c = '-' then -1 else 1
  | [] => 1

/-- Removes one leading `+` or `-`. -/
def stripSign : List Char → List Char
  | c :: t => if c = '+' ∨ c = '-' then t else c :: t
  | [] => []

/-- With no radix argument: a leading `0x` or `0X` is removed and selects
radix 16, otherwise the radix is 10. -/
def stripRadixPrefix : List Char → Nat × List Char
  | c :: d :: t => if c = '0' ∧ (d = 'x' ∨ d = 'X') then (16, t) else (10, c :: d :: t)
  | S => (10, S)

/-- `Number.parseInt(text)` with the radix omitted.  `none` stands for `NaN`,
which is all that the validation of the screen looks at.  Otherwise the
result is `mathInt`, the mathematical value of the signed digit prefix.
`Number.parseInt` returns the double nearest to `mathInt`: the same number
when its magnitude is at most `2 ^ 53` (`isExactNumber`), a rounded one
beyond (an implementation-approximated one past twenty digits, `Infinity`
in the end).  Rounded values are not represented here, so every statement
about the VALUE of a parsed age is made under `isExactNumber`. -/
def parseInt (text : String) : Option Int :=
  let S := text.toList.dropWhile isJsWhiteSpace
  let sign := parseSign S
  let (R, S) := stripRadixPrefix (stripSign S)
  let Z := digitsPrefix R S
  match Z with
  | [] => none
  | _ :: _ => some (sign * ((Z.foldl (fun acc d => acc * R + d) 0 : Nat) : Int))

/-- The integers that a double holds exactly and that `Number.parseInt`
therefore returns unrounded: magnitude at most `2 ^ 53`. -/
def isExactNumber (n : Int) : Prop := -9007199254740992 ≤ n ∧ n ≤ 9007199254740992

instance (n : Int) : Decidable (isExactNumber n) := inferInstanceAs (Decidable (_ ∧ _))

/-- `Math.ceil(count / n)` for a row count and a positive page size. -/
def mathCeilDiv (count n : Nat) : Nat := (count + (n - 1)) / n

/-- An `Alert.alert(title, message)` call. -/
structure Alert where
  title : String
  message : String
deriving DecidableEq, Repr

/-! ## The `people` table and the statements the screen issues -/

/-- A row of `people (id INTEGER PRIMARY KEY AUTOINCREMENT, name TEXT, age INTEGER)`. -/
structure Person where
  id : Nat
  name : String
  age : Int
deriving DecidableEq, Repr

/-- The database file `peopledb.db`: whether the table exists, its rows (in
no particular order) and the `sqlite_sequence` entry of the table, the
largest rowid that AUTOINCREMENT has handed out.  Rowids are modelled as
natural numbers (the 64-bit limit of SQLite is out of reach of this screen). -/
structure Database where
  created : Bool
  rows : List Person
  seq : Nat
deriving DecidableEq, Repr

/-- The SQL statements of `sqlite.jsx`, with their bound parameters. -/
inductive Stmt where
  | createTable
  | count
  | selectPage (limit offset : Int)
  | insert (name : String) (age : Int)
  | deleteAll
  | deleteWhereId (id : Nat)
  | update (name : String) (age : Int) (id : Nat)
deriving DecidableEq, Repr

/-- What a statement callback receives: `rows._array` (person rows, or the
single `count` column of the count query) and `rowsAffected`. -/
structure ResultSet where
  rows : List Person
  count : Nat
  rowsAffected : Nat
deriving DecidableEq, Repr

/-- Descending order on the primary key, the `ORDER BY id DESC` of the listing. -/
def idDesc (a b : Person) : Prop := b.id ≤ a.id

instance : DecidableRel idDesc := fun a b => inferInstanceAs (Decidable (b.id ≤ a.id))

/-- The rows of the table in `ORDER BY id DESC` order. -/
def orderByIdDesc (rows : List Person) : List Person := rows.insertionSort idDesc

/-- Largest rowid present in the table (`0` for the empty table). -/
def maxId (rows : List Person) : Nat := (rows.map Person.id).foldr max 0

/-- The rowid AUTOINCREMENT gives the next inserted row: one more than the
largest rowid that ever existed in the table. -/
def Database.nextId (db : Database) : Nat := max db.seq (maxId db.rows) + 1

/-- `LIMIT ? OFFSET ?` as SQLite reads them: a negative offset is zero, a
negative limit is no limit. -/
def limitOffset (limit offset : Int) (rows : List Person) : List Person :=
  let rest := rows.drop offset.toNat
  if limit < 0 then rest else rest.take limit.toNat

/-- Runs one statement.  `none` is a statement error (here: the table does
not exist); otherwise the result set and the database after the statement. -/
def Database.run (db : Database) (s : Stmt) : Option (ResultSet × Database) :=
  match s with
  | .createTable => some (⟨[], 0, 0⟩, { db with created := true })
  | .count =>
    if db.created then some (⟨[], db.rows.length, 0⟩, db) else none
  | .selectPage limit offset =>
    if db.created then some (⟨limitOffset limit offset (orderByIdDesc db.rows), 0, 0⟩, db)
    else none
  | .insert name age =>
    if db.created then
      some (⟨[], 0, 1⟩, { db with rows := db.rows ++ [⟨db.nextId, name, age⟩], seq := db.nextId })
    else none
  | .deleteAll =>
    if db.created then some (⟨[], 0, db.rows.length⟩, { db with rows := [] }) else none
  | .deleteWhereId id =>
    if db.created then
      some (⟨[], 0, (db.rows.filter (fun p => p.id = id)).length⟩,
        { db with rows := db.rows.filter (fun p => ¬ p.id = id) })
    else none
  | .update name age id =>
    if db.created then
      some (⟨[], 0, (db.rows.filter (fun p => p.id = id)).length⟩,
        { db with rows := db.rows.map (fun p => if p.id = id then ⟨p.id, name, age⟩ else p) })
    else none

/-- The PRIMARY KEY constraint: no two rows share an id. -/
def Database.WF (db : Database) : Prop := (db.rows.map Person.id).Nodup

instance (db : Database) : Decidable db.WF := inferInstanceAs (Decidable (List.Nodup _))

/-- Everything outside the component: the database, the statements executed
so far, the alerts shown so far, and the pending outcomes of the next engine
calls (`true` = that call fails; an exhausted stream means no failure). -/
structure World where
  db : Database
  trace : List Stmt
  alerts : List Alert
  faults : List Bool
deriving DecidableEq, Repr

/-- `tx.executeSql(stmt, args, onSuccess, onError)`: the statement is sent to
the engine; `none` selects the error callback, `some rs` the success one. -/
def World.executeSql (w : World) (s : Stmt) : Option ResultSet × World :=
  let w1 : World := { w with trace := w.trace ++ [s], faults := w.faults.tail }
  if w.faults.head? = some true then (none, w1)
  else
    match w.db.run s with
    | some (rs, db) => (some rs, { w1 with db := db })
    | none => (none, w1)

/-- `Alert.alert(title, message)`. -/
def World.alert (w : World) (title message : String) : World :=
  { w with alerts := w.alerts ++ [⟨title, message⟩] }

/-! ## The SQLite screen (`SQLiteTab`) -/

/-- The `useState` cells of `SQLiteTab`.  `db` records whether the database
handle is set (`null` before the mount effect has run). -/
structure View where
  db : Bool
  name : String
  age : String
  people : List Person
  isLoading : Bool
  currentPage : Int
  totalPages : Nat
  isEditing : Bool
  editingPerson : Option Person
  modalVisible : Bool
deriving DecidableEq, Repr

/-- The component state together with the world it acts on. -/
structure App where
  view : View
  world : World
deriving DecidableEq, Repr

/-- The constant `itemsPerPage`. -/
def itemsPerPage : Nat := 5

/-- The state of the first render: the `useState` initial values. -/
def View.initial : View :=
  { db := false, name := "", age := "", people := [], isLoading := false,
    currentPage := 1, totalPages := 1, isEditing := false, editingPerson := none,
    modalVisible := false }

/-- `setIsLoading(b)`. -/
def App.setIsLoading (a : App) (b : Bool) : App :=
  { a with view := { a.view with isLoading := b } }

/-- `Alert.alert(title, message)` from a handler. -/
def App.alert (a : App) (title message : String) : App :=
  { a with world := a.world.alert title message }

/-- `countTotalPeople` of the render `r`. -/
def countTotalPeople (r : View) (a : App) : App :=
  if r.db then
    match a.world.executeSql .count with
    | (some rs, w) =>
      { view := { a.view with totalPages := mathCeilDiv rs.count itemsPerPage }, world := w }
    | (none, w) => { a with world := w }
  else a

/-- `fetchPeople` of the render `r`: the page queried is `r.currentPage`. -/
def fetchPeople (r : View) (a : App) : App :=
  if r.db then
    let a := a.setIsLoading true
    let offset : Int := (r.currentPage - 1) * itemsPerPage
    match a.world.executeSql (.selectPage itemsPerPage offset) with
    | (some rs, w) =>
      { view := { a.view with people := rs.rows, isLoading := false }, world := w }
    | (none, w) => ({ a with world := w }).setIsLoading false
  else a

/-- The effect `useEffect(() => fetchPeople(), [currentPage])` after a
re-render: it runs, with the closures of the new render, when `currentPage`
differs from the value `prev` of the previous render. -/
def effectCurrentPage (prev : View) (a : App) : App :=
  if a.view.currentPage = prev.currentPage then a else fetchPeople a.view a

/-- `addPerson` of the render `r`. -/
def addPerson (r : View) (a : App) : App :=
  if r.name = "" ∨ r.age = "" then
    a.alert "Error" "Por favor ingresa nombre y edad"
  else
    match parseInt r.age with
    | none => a.alert "Error" "La edad debe ser un número"
    | some ageNum =>
      let a := a.setIsLoading true
      -- `db.transaction` on a null handle throws
      if r.db then
        match a.world.executeSql (.insert r.name ageNum) with
        | (some result, w) =>
          let a : App := { a with world := w }
          let a :=
            if result.rowsAffected > 0 then
              let a := a.alert "Éxito" "Persona agregada correctamente"
              let a : App := { a with view := { a.view with name := "", age := "" } }
              let a := fetchPeople r a
              let a := countTotalPeople r a
              { a with view := { a.view with currentPage := 1 } }
            else a.alert "Error" "No se pudo agregar la persona"
          a.setIsLoading false
        | (none, w) => ({ a with world := w }).setIsLoading false
      else a

/-- `clearTable` of the render `r`; `confirm` is the button chosen in the
confirmation dialog (`true` = "Eliminar"). -/
def clearTable (r : View) (confirm : Bool) (a : App) : App :=
  let a := a.alert "Confirmar eliminación" "¿Estás seguro de que deseas eliminar todos los registros?"
  if confirm then
    let a := a.setIsLoading true
    if r.db then
      match a.world.executeSql .deleteAll with
      | (some _, w) =>
        let a : App := { a with world := w }
        let a := a.alert "Éxito" "Todos los registros han sido eliminados"
        let a := fetchPeople r a
        let a := countTotalPeople r a
        let a : App := { a with view := { a.view with currentPage := 1 } }
        a.setIsLoading false
      | (none, w) => ({ a with world := w }).setIsLoading false
    else a
  else a

/-- `deletePerson(id)` of the render `r`, with the button chosen in the
confirmation dialog. -/
def deletePerson (r : View) (id : Nat) (confirm : Bool) (a : App) : App :=
  let a := a.alert "Confirmar eliminación" "¿Estás seguro de que deseas eliminar este registro?"
  if confirm then
    let a := a.setIsLoading true
    if r.db then
      match a.world.executeSql (.deleteWhereId id) with
      | (some result, w) =>
        let a : App := { a with world := w }
        let a :=
          if result.rowsAffected > 0 then
            let a := a.alert "Éxito" "Registro eliminado correctamente"
            let a := fetchPeople r a
            countTotalPeople r a
          else a.alert "Error" "No se pudo eliminar el registro"
        a.setIsLoading false
      | (none, w) => ({ a with world := w }).setIsLoading false
    else a
  else a

/-- `openEditModal(person)`; `person.age.toString()` is the decimal text of
the stored integer (JavaScript switches to exponent notation from `1e21`
on, which is outside `isExactNumber`). -/
def openEditModal (person : Person) (a : App) : App :=
  { a with view :=
      { a.view with
        editingPerson := some person
        name := person.name
        age := toString person.age
        isEditing := true
        modalVisible := true } }

/-- `cancelEdit`. -/
def cancelEdit (a : App) : App :=
  { a with view :=
      { a.view with
        modalVisible := false
        name := ""
        age := ""
        isEditing := false } }

/-- `updatePerson` of the render `r`. -/
def updatePerson (r : View) (a : App) : App :=
  if r.name = "" ∨ r.age = "" then
    a.alert "Error" "Por favor ingresa nombre y edad"
  else
    match parseInt r.age with
    | none => a.alert "Error" "La edad debe ser un número"
    | some ageNum =>
      let a := a.setIsLoading true
      -- a null handle, or `editingPerson.id` on null, throws
      match r.db, r.editingPerson with
      | true, some editing =>
        match a.world.executeSql (.update r.name ageNum editing.id) with
        | (some result, w) =>
          let a : App := { a with world := w }
          let a :=
            if result.rowsAffected > 0 then
              let a := a.alert "Éxito" "Registro actualizado correctamente"
              let a : App :=
                { a with view :=
                    { a.view with
                      modalVisible := false
                      name := ""
                      age := ""
                      isEditing := false } }
              fetchPeople r a
            else a.alert "Error" "No se pudo actualizar el registro"
          a.setIsLoading false
        | (none, w) => ({ a with world := w }).setIsLoading false
      | _, _ => a

/-- `changePage(newPage)` of the render `r`. -/
def changePage (r : View) (newPage : Int) (a : App) : App :=
  if newPage ≥ 1 ∧ newPage ≤ (r.totalPages : Int) then
    { a with view := { a.view with currentPage := newPage } }
  else a

/-! ### User actions: a handler of the current render, then the effects of
the re-render it causes -/

/-- Pressing "Agregar Persona". -/
def pressAdd (a : App) : App := effectCurrentPage a.view (addPerson a.view a)

/-- Pressing "Limpiar Tabla" and answering the dialog. -/
def pressClear (confirm : Bool) (a : App) : App :=
  effectCurrentPage a.view (clearTable a.view confirm a)

/-- Pressing "Eliminar" on a row and answering the dialog. -/
def pressDelete (id : Nat) (confirm : Bool) (a : App) : App :=
  effectCurrentPage a.view (deletePerson a.view id confirm a)

/-- Pressing "Guardar" in the edit modal. -/
def pressUpdate (a : App) : App := effectCurrentPage a.view (updatePerson a.view a)

/-- Pressing "Actualizar Lista". -/
def pressRefresh (a : App) : App := effectCurrentPage a.view (fetchPeople a.view a)

/-- Pressing "Anterior" or "Siguiente" (`delta` is `-1` or `1`). -/
def pressPage (delta : Int) (a : App) : App :=
  effectCurrentPage a.view (changePage a.view (a.view.currentPage + delta) a)

/-- The first render of `SQLiteTab` and its two mount effects, in source
order: the handle is opened and stored, the bootstrap transaction is queued,
the `[currentPage]` effect calls `fetchPeople`, and then the bootstrap
transaction runs and its success callback calls `fetchPeople` and
`countTotalPeople`.  All these closures belong to the first render. -/
def mount (w : World) : App :=
  let r := View.initial
  let a : App := { view := { r with db := true }, world := w }
  let a := fetchPeople r a
  match a.world.executeSql .createTable with
  | (some _, w) => countTotalPeople r (fetchPeople r { a with world := w })
  | (none, w) => { a with world := w }

/-- `list(page)` of the specification: the listing `fetchPeople` obtains
when the current page is `page`. -/
def listPage (db : Database) (page : Int) : List Person :=
  limitOffset itemsPerPage ((page - 1) * itemsPerPage) (orderByIdDesc db.rows)

/-- `countPages()` of the specification: the value `countTotalPeople` stores
in `totalPages`. -/
def countPages (db : Database) : Nat := mathCeilDiv db.rows.length itemsPerPage

/-! ## The SecureStore screen (`SecureStoreTab`) -/

/-- The calls made to `expo-secure-store`, all under the key `STORAGE_KEY`. -/
inductive StoreCall where
  | setItem (value : String)
  | getItem
  | deleteItem
deriving DecidableEq, Repr

/-- The platform key-value store as seen through `STORAGE_KEY`: the stored
value (`none` = nothing stored, `getItemAsync` resolves to `null`), the calls
made, the alerts shown and the pending outcomes of the next calls
(`true` = the promise rejects). -/
structure SecureWorld where
  slot : Option String
  calls : List StoreCall
  alerts : List Alert
  faults : List Bool
deriving DecidableEq, Repr

/-- The `useState` cells of `SecureStoreTab`. -/
structure SecureView where
  tempData : String
  data : String
  storedData : String
  isLoading : Bool
  showPassword : Bool
deriving DecidableEq, Repr

/-- The SecureStore screen and the store it acts on. -/
structure SecureApp where
  view : SecureView
  world : SecureWorld
deriving DecidableEq, Repr

/-- The `useState` initial values of `SecureStoreTab`. -/
def SecureView.initial : SecureView :=
  { tempData := "", data := "", storedData := "", isLoading := false, showPassword := false }

/-- One call to the platform store: `none` when the promise rejects,
otherwise the resolved value (`getItemAsync` resolves to the stored value or
`null`, the other two to nothing) and the store after the call. -/
def SecureWorld.call (w : SecureWorld) (c : StoreCall) : Option (Option String) × SecureWorld :=
  let w1 : SecureWorld := { w with calls := w.calls ++ [c], faults := w.faults.tail }
  if w.faults.head? = some true then (none, w1)
  else
    match c with
    | .setItem value => (some none, { w1 with slot := some value })
    | .getItem => (some w.slot, w1)
    | .deleteItem => (some none, { w1 with slot := none })

/-- `Alert.alert(title, message)` from a SecureStore handler. -/
def SecureApp.alert (a : SecureApp) (title message : String) : SecureApp :=
  { a with world := { a.world with alerts := a.world.alerts ++ [⟨title, message⟩] } }

/-- `setIsLoading(b)` of the SecureStore screen. -/
def SecureApp.setIsLoading (a : SecureApp) (b : Bool) : SecureApp :=
  { a with view := { a.view with isLoading := b } }

/-- `saveData` of the render `r`. -/
def saveData (r : SecureView) (a : SecureApp) : SecureApp :=
  if jsTrim r.data.toList = [] then
    a.alert "Error" "Por favor ingresa un dato antes de guardar."
  else
    let a := a.setIsLoading true
    let a :=
      match a.world.call (.setItem r.data) with
      | (some _, w) =>
        let a : SecureApp := { view := { a.view with tempData := r.data }, world := w }
        a.alert "Guardado" "Dato guardado de forma segura."
      | (none, w) =>
        ({ a with world := w } : SecureApp).alert "Error" "No se pudo guardar el dato de forma segura."
    a.setIsLoading false

/-- `loadData`. -/
def loadData (a : SecureApp) : SecureApp :=
  let a := a.setIsLoading true
  let a : SecureApp :=
    match a.world.call .getItem with
    | (some (some value), w) => { view := { a.view with storedData := value }, world := w }
    | (some none, w) =>
      ({ a with world := w } : SecureApp).alert "Información" "No hay datos almacenados."
    | (none, w) =>
      ({ a with world := w } : SecureApp).alert "Error" "No se pudo cargar el dato seguro."
  a.setIsLoading false

/-- `clearData` of the render `r`. -/
def clearData (r : SecureView) (a : SecureApp) : SecureApp :=
  if r.storedData = "" then
    a.alert "Información" "No hay datos para eliminar."
  else
    let a := a.setIsLoading true
    let a :=
      match a.world.call .deleteItem with
      | (some _, w) =>
        let a : SecureApp := { view := { a.view with storedData := "" }, world := w }
        a.alert "Eliminado" "Dato seguro eliminado."
      | (none, w) =>
        ({ a with world := w } : SecureApp).alert "Error" "No se pudo eliminar el dato seguro."
    a.setIsLoading false

/-- `toggleShowPassword` of the render `r`. -/
def toggleShowPassword (r : SecureView) (a : SecureApp) : SecureApp :=
  { a with view := { a.view with showPassword := !r.showPassword } }

/-- What the user can do on the SecureStore screen. -/
inductive SecureAction where
  | type (text : String)
  | save
  | load
  | clear
  | toggle
deriving DecidableEq, Repr

/-- One user action, handled by the handlers of the current render. -/
def SecureApp.step (a : SecureApp) : SecureAction → SecureApp
  | .type text => { a with view := { a.view with data := text } }
  | .save => saveData a.view a
  | .load => loadData a
  | .clear => clearData a.view a
  | .toggle => toggleShowPassword a.view a

/-- The first render of `SecureStoreTab` and its mount effect `loadData()`. -/
def SecureApp.mount (w : SecureWorld) : SecureApp :=
  loadData { view := SecureView.initial, world := w }

/-- A sequence of user actions, from left to right. -/
def SecureApp.run (a : SecureApp) (actions : List SecureAction) : SecureApp :=
  actions.foldl SecureApp.step a

/-- Whether the `load()` that produced `after` from `before` reported
"absent": its last alert is the no-data notice and the displayed value was
left as it was. -/
def reportsAbsent (before after : SecureApp) : Prop :=
  after.world.alerts = before.world.alerts ++ [⟨"Información", "No hay datos almacenados."⟩] ∧
    after.view.storedData = before.view.storedData

instance (before after : SecureApp) : Decidable (reportsAbsent before after) :=
  inferInstanceAs (Decidable (_ ∧ _))

/-- The two validation alerts of `addPerson` and `updatePerson`. -/
def validationAlerts : List Alert :=
  [⟨"Error", "Por favor ingresa nombre y edad"⟩, ⟨"Error", "La edad debe ser un número"⟩]

/-- A table of six rows inserted one after the other into a fresh database. -/
def sixRows : Database :=
  { created := true
    rows := [⟨1, "Ana", 30⟩, ⟨2, "Ben", 41⟩, ⟨3, "Cruz", 25⟩, ⟨4, "Dora", 52⟩, ⟨5, "Eva", 19⟩,
      ⟨6, "Fito", 33⟩]
    seq := 6 }

/-- The SQLite screen after start-up on the database `db`, with `name` and
`age` typed into the form and the view on page `page`. -/
def screenOn (db : Database) (name age : String) (page : Int) : App :=
  { view :=
      { View.initial with
        db := true
        name := name
        age := age
        currentPage := page
        totalPages := countPages db }
    world := { db := db, trace := [], alerts := [], faults := [] } }

/-- The SQLite screen with the edit modal open on `person`, the form holding
`name` and `age`, and the view on page `page`. -/
def editingOn (db : Database) (person : Person) (name age : String) (page : Int) : App :=
  { view :=
      { (screenOn db name age page).view with
        editingPerson := some person
        isEditing := true
        modalVisible := true }
    world := (screenOn db name age page).world }

/-- The listings `list(1), ..., list(totalPages)`: for every page number up
to the `totalPages` that `countTotalPeople` stores, what `fetchPeople` stores
in `people` when the view is on that page. -/
def allPages (r : View) (a : App) : List (List Person) :=
  (List.range (countTotalPeople r a).view.totalPages).map
    (fun (i : Nat) => (fetchPeople { r with currentPage := (i : Int) + 1 } a).view.people)

/-- A decimal digit `0-9`. -/
def isDecimalDigit (c : Char) : Bool := 48 ≤ c.toNat && c.toNat ≤ 57

/-- A hexadecimal digit `0-9`, `a-f`, `A-F`. -/
def isHexDigit (c : Char) : Bool :=
  isDecimalDigit c || (97 ≤ c.toNat && c.toNat ≤ 102) || (65 ≤ c.toNat && c.toNat ≤ 70)

/-- The amended wording of the age rule: after leading white space and one
optional sign, the text begins with `0x` or `0X` followed by a hexadecimal
digit, or else (no such radix prefix) with a decimal digit. -/
def startsWithInteger (text : String) : Bool :=
  match stripSign (text.toList.dropWhile isJsWhiteSpace) with
  | [] => false
  | [c] => isDecimalDigit c
  | c :: d :: rest =>
    if c = '0' ∧ (d = 'x' ∨ d = 'X') then
      match rest with
      | [] => false
      | e :: _ => isHexDigit e
    else isDecimalDigit c

/-- The SecureStore screen right after start-up on an empty store. -/
def freshSecure : SecureApp := SecureApp.mount { slot := none, calls := [], alerts := [], faults := [] }

/-! ## Engine lemmas -/

theorem executeSql_count (w : World) (hc : w.db.created = true) (hf : w.faults = []) :
    w.executeSql .count =
      (some ⟨[], w.db.rows.length, 0⟩, { w with trace := w.trace ++ [.count] }) := by
  simp [World.executeSql, Database.run, hc, hf]

theorem executeSql_selectPage (w : World) (limit offset : Int) (hc : w.db.created = true)
    (hf : w.faults = []) :
    w.executeSql (.selectPage limit offset) =
      (some ⟨limitOffset limit offset (orderByIdDesc w.db.rows), 0, 0⟩,
        { w with trace := w.trace ++ [.selectPage limit offset] }) := by
  simp [World.executeSql, Database.run, hc, hf]

/-- `Math.ceil (count / 5)` computed on naturals is the ceiling of the
rational quotient. -/
theorem mathCeilDiv_eq_ceil (count : Nat) :
    ((mathCeilDiv count itemsPerPage : Nat) : ℤ) = ⌈(count : ℚ) / 5⌉ := by
  symm
  rw [Int.ceil_eq_iff]
  have h1 : 5 * mathCeilDiv count itemsPerPage ≤ count + 4 := by
    unfold mathCeilDiv itemsPerPage; omega
  have h2 : count ≤ 5 * mathCeilDiv count itemsPerPage := by
    unfold mathCeilDiv itemsPerPage; omega
  have h1q : (5 : ℚ) * (mathCeilDiv count itemsPerPage : ℚ) ≤ (count : ℚ) + 4 := by
    exact_mod_cast h1
  have h2q : (count : ℚ) ≤ 5 * (mathCeilDiv count itemsPerPage : ℚ) := by
    exact_mod_cast h2
  have hx : (count : ℚ) = 5 * ((count : ℚ) / 5) := by ring
  constructor
  · push_cast; linarith
  · push_cast; linarith

theorem countTotalPeople_eq (r : View) (a : App) (hdb : r.db = true)
    (hc : a.world.db.created = true) (hf : a.world.faults = []) :
    countTotalPeople r a =
      { view := { a.view with totalPages := countPages a.world.db }
        world := { a.world with trace := a.world.trace ++ [.count] } } := by
  simp [countTotalPeople, hdb, executeSql_count _ hc hf, countPages]

theorem fetchPeople_eq (r : View) (a : App) (hdb : r.db = true)
    (hc : a.world.db.created = true) (hf : a.world.faults = []) :
    fetchPeople r a =
      { view := { a.view with people := listPage a.world.db r.currentPage, isLoading := false }
        world := { a.world with
          trace := a.world.trace ++ [.selectPage itemsPerPage ((r.currentPage - 1) * itemsPerPage)] } } := by
  have h := executeSql_selectPage a.world itemsPerPage ((r.currentPage - 1) * itemsPerPage) hc hf
  simp [fetchPeople, hdb, App.setIsLoading, h, listPage]

instance : IsTotal Person idDesc := ⟨fun a b => Nat.le_total b.id a.id⟩

instance : IsTrans Person idDesc := ⟨fun _ _ _ hab hbc => Nat.le_trans hbc hab⟩

theorem orderByIdDesc_perm (rows : List Person) : (orderByIdDesc rows).Perm rows :=
  List.perm_insertionSort idDesc rows

theorem orderByIdDesc_sorted (rows : List Person) : (orderByIdDesc rows).Pairwise idDesc :=
  List.sorted_insertionSort idDesc rows

theorem orderByIdDesc_length (rows : List Person) : (orderByIdDesc rows).length = rows.length :=
  (orderByIdDesc_perm rows).length_eq

/-- Under the primary-key constraint the listing order is strictly decreasing. -/
theorem orderByIdDesc_strict (rows : List Person) (h : (rows.map Person.id).Nodup) :
    (orderByIdDesc rows).Pairwise (fun x y => y.id < x.id) := by
  have hnd : ((orderByIdDesc rows).map Person.id).Nodup :=
    ((orderByIdDesc_perm rows).map Person.id).nodup_iff.mpr h
  have hne : (orderByIdDesc rows).Pairwise (fun x y => x.id ≠ y.id) := by
    simpa [List.Nodup, List.pairwise_map] using hnd
  refine ((orderByIdDesc_sorted rows).and hne).imp ?_
  intro x y hxy
  exact Nat.lt_of_le_of_ne hxy.1 (Ne.symm hxy.2)

/-- The page query of `fetchPeople`, for a page number from `1` on. -/
theorem listPage_eq (db : Database) (page : Int) (hp : 1 ≤ page) :
    listPage db page =
      ((orderByIdDesc db.rows).drop ((page - 1).toNat * 5)).take 5 := by
  have h1 : ((page - 1) * (itemsPerPage : Int)).toNat = (page - 1).toNat * 5 := by
    unfold itemsPerPage; omega
  have h2 : ¬ ((itemsPerPage : Int) < 0) := by unfold itemsPerPage; omega
  simp only [listPage, limitOffset, h1, if_neg h2]
  rfl

theorem executeSql_insert (w : World) (name : String) (age : Int)
    (hc : w.db.created = true) (hf : w.faults = []) :
    w.executeSql (.insert name age) =
      (some ⟨[], 0, 1⟩,
        { w with
          db := { w.db with rows := w.db.rows ++ [⟨w.db.nextId, name, age⟩], seq := w.db.nextId }
          trace := w.trace ++ [.insert name age] }) := by
  simp [World.executeSql, Database.run, hc, hf]

theorem le_maxId (rows : List Person) (p : Person) (hp : p ∈ rows) : p.id ≤ maxId rows := by
  induction rows with
  | nil => cases hp
  | cons q qs ih =>
    have hstep : maxId (q :: qs) = max q.id (maxId qs) := rfl
    rw [hstep]
    rcases List.mem_cons.mp hp with h | h
    · subst h; exact le_max_left _ _
    · exact le_trans (ih h) (le_max_right _ _)

theorem lt_nextId (db : Database) (p : Person) (hp : p ∈ db.rows) : p.id < db.nextId := by
  have h := le_maxId db.rows p hp
  unfold Database.nextId
  omega

/-- A row whose id exceeds every other id of the table comes first in the listing order. -/
theorem orderByIdDesc_head (rows : List Person) (x : Person) (hx : x ∈ rows)
    (hmax : ∀ y ∈ rows, y ≠ x → y.id < x.id) : (orderByIdDesc rows).head? = some x := by
  have hperm := orderByIdDesc_perm rows
  have hsorted := orderByIdDesc_sorted rows
  cases hs : orderByIdDesc rows with
  | nil =>
    rw [hs] at hperm
    have := hperm.symm.eq_nil
    subst this
    cases hx
  | cons h t =>
    rw [hs] at hperm hsorted
    have hh : h ∈ rows := hperm.subset (List.mem_cons_self h t)
    have hxs : x ∈ h :: t := hperm.symm.subset hx
    by_cases heq : h = x
    · simp [heq]
    · have hlt := hmax h hh heq
      rcases List.mem_cons.mp hxs with hx1 | hx1
      · exact absurd hx1.symm heq
      · have hle : idDesc h x := (List.pairwise_cons.mp hsorted).1 x hx1
        unfold idDesc at hle
        omega

theorem executeSql_deleteWhereId (w : World) (id : Nat)
    (hc : w.db.created = true) (hf : w.faults = []) :
    w.executeSql (.deleteWhereId id) =
      (some ⟨[], 0, (w.db.rows.filter (fun p => p.id = id)).length⟩,
        { w with
          db := { w.db with rows := w.db.rows.filter (fun p => ¬ p.id = id) }
          trace := w.trace ++ [.deleteWhereId id] }) := by
  simp [World.executeSql, Database.run, hc, hf]

/-- Under the primary-key constraint `DELETE ... WHERE id = ?` on the id of
a row of the table affects exactly that one row. -/
theorem filter_id_length (rows : List Person) (x : Person) (hnd : (rows.map Person.id).Nodup)
    (hx : x ∈ rows) :
    (rows.filter (fun p => p.id = x.id)).length = 1 ∧
      (rows.filter (fun p => ¬ p.id = x.id)).length + 1 = rows.length := by
  induction rows with
  | nil => cases hx
  | cons q qs ih =>
    rw [List.map_cons, List.nodup_cons] at hnd
    obtain ⟨hq, hqs⟩ := hnd
    by_cases hqx : q.id = x.id
    · have hnone : ∀ p ∈ qs, ¬ p.id = x.id := by
        intro p hp hpx
        exact hq (List.mem_map.mpr ⟨p, hp, hpx.trans hqx.symm⟩)
      have h1 : qs.filter (fun p => p.id = x.id) = [] := by
        rw [List.filter_eq_nil_iff]
        intro p hp
        simpa using hnone p hp
      have h2 : qs.filter (fun p => ¬ p.id = x.id) = qs := by
        rw [List.filter_eq_self]
        intro p hp
        simpa using hnone p hp
      have e1 : (q :: qs).filter (fun p => p.id = x.id) = q :: qs.filter (fun p => p.id = x.id) :=
        List.filter_cons_of_pos (by simpa using hqx)
      have e2 : (q :: qs).filter (fun p => ¬ p.id = x.id) = qs.filter (fun p => ¬ p.id = x.id) :=
        List.filter_cons_of_neg (by simpa using hqx)
      rw [e1, e2, h1, h2]
      exact ⟨rfl, rfl⟩
    · have hxq : x ∈ qs := by
        rcases List.mem_cons.mp hx with h | h
        · exact absurd (congrArg Person.id h).symm hqx
        · exact h
      obtain ⟨ih1, ih2⟩ := ih hqs hxq
      have e1 : (q :: qs).filter (fun p => p.id = x.id) = qs.filter (fun p => p.id = x.id) :=
        List.filter_cons_of_neg (by simpa using hqx)
      have e2 : (q :: qs).filter (fun p => ¬ p.id = x.id) =
          q :: qs.filter (fun p => ¬ p.id = x.id) :=
        List.filter_cons_of_pos (by simpa using hqx)
      rw [e1, e2, ih1, List.length_cons, List.length_cons, ih2]
      exact ⟨rfl, rfl⟩

theorem executeSql_update (w : World) (name : String) (age : Int) (id : Nat)
    (hc : w.db.created = true) (hf : w.faults = []) :
    w.executeSql (.update name age id) =
      (some ⟨[], 0, (w.db.rows.filter (fun p => p.id = id)).length⟩,
        { w with
          db := { w.db with
            rows := w.db.rows.map (fun p => if p.id = id then ⟨p.id, name, age⟩ else p) }
          trace := w.trace ++ [.update name age id] }) := by
  simp [World.executeSql, Database.run, hc, hf]

/-- `fetchPeople` writes neither `currentPage` nor `totalPages`, whatever the engine answers. -/
theorem fetchPeople_frame (r : View) (a : App) :
    (fetchPeople r a).view.currentPage = a.view.currentPage ∧
      (fetchPeople r a).view.totalPages = a.view.totalPages := by
  unfold fetchPeople
  by_cases hdb : r.db = true
  · simp only [hdb, if_true]
    cases h : ((a.setIsLoading true).world.executeSql
        (.selectPage itemsPerPage ((r.currentPage - 1) * itemsPerPage))) with
    | mk res w =>
      cases res with
      | none => exact ⟨rfl, rfl⟩
      | some rs => exact ⟨rfl, rfl⟩
  · simp [hdb]

/-- Every statement of the screen keeps the primary-key constraint. -/
theorem run_preserves_WF (db db1 : Database) (s : Stmt) (rs : ResultSet) (hwf : db.WF)
    (hrun : db.run s = some (rs, db1)) : db1.WF := by
  unfold Database.WF at hwf ⊢
  cases s with
  | createTable =>
    simp only [Database.run, Option.some.injEq, Prod.mk.injEq] at hrun
    rw [← hrun.2]; exact hwf
  | count =>
    by_cases hc : db.created = true
    · simp only [Database.run, hc, if_true, Option.some.injEq, Prod.mk.injEq] at hrun
      rw [← hrun.2]; exact hwf
    · simp [Database.run, hc] at hrun
  | selectPage limit offset =>
    by_cases hc : db.created = true
    · simp only [Database.run, hc, if_true, Option.some.injEq, Prod.mk.injEq] at hrun
      rw [← hrun.2]; exact hwf
    · simp [Database.run, hc] at hrun
  | insert name age =>
    by_cases hc : db.created = true
    · simp only [Database.run, hc, if_true, Option.some.injEq, Prod.mk.injEq] at hrun
      rw [← hrun.2]
      simp only [List.map_append, List.map_cons, List.map_nil]
      refine List.Nodup.append hwf (List.nodup_singleton _) ?_
      intro i hi hi2
      obtain ⟨p, hp, rfl⟩ := List.mem_map.mp hi
      have hlt := lt_nextId db p hp
      have heq : p.id = db.nextId := List.mem_singleton.mp hi2
      omega
    · simp [Database.run, hc] at hrun
  | deleteAll =>
    by_cases hc : db.created = true
    · simp only [Database.run, hc, if_true, Option.some.injEq, Prod.mk.injEq] at hrun
      rw [← hrun.2]; exact List.nodup_nil
    · simp [Database.run, hc] at hrun
  | deleteWhereId id =>
    by_cases hc : db.created = true
    · simp only [Database.run, hc, if_true, Option.some.injEq, Prod.mk.injEq] at hrun
      rw [← hrun.2]
      exact hwf.sublist ((List.filter_sublist _).map Person.id)
    · simp [Database.run, hc] at hrun
  | update name age id =>
    by_cases hc : db.created = true
    · simp only [Database.run, hc, if_true, Option.some.injEq, Prod.mk.injEq] at hrun
      rw [← hrun.2]
      have hids : (db.rows.map (fun p => if p.id = id then (⟨p.id, name, age⟩ : Person) else p)).map
          Person.id = db.rows.map Person.id := by
        rw [List.map_map]
        apply List.map_congr_left
        intro p _
        by_cases hp : p.id = id <;> simp [hp]
      show (List.map Person.id (List.map _ db.rows)).Nodup
      rw [hids]; exact hwf
    · simp [Database.run, hc] at hrun

/-! ## C1: the page count -/

/-- C1 (as stated, refuted): after "Limpiar Tabla" on a table of six rows the
table is empty and `countTotalPeople` has stored `totalPages = 0`, which is
not `max 1 (ceil (0 / 5)) = 1`. -/
theorem totalPages_zero_after_clear :
    (pressClear true (screenOn sixRows "" "" 1)).world.db.rows = [] ∧
      (pressClear true (screenOn sixRows "" "" 1)).world.trace.getLast? = some .count ∧
      (pressClear true (screenOn sixRows "" "" 1)).view.totalPages = 0 ∧
      ((pressClear true (screenOn sixRows "" "" 1)).view.totalPages : ℤ) ≠
        max 1 ⌈(((pressClear true (screenOn sixRows "" "" 1)).world.db.rows.length : ℕ) : ℚ) / 5⌉ := by
  have h1 : (pressClear true (screenOn sixRows "" "" 1)).world.db.rows = [] := by decide
  have h2 : (pressClear true (screenOn sixRows "" "" 1)).view.totalPages = 0 := by decide
  refine ⟨h1, by decide, h2, ?_⟩
  rw [h1, h2]
  norm_num

/-- C1 (amended): once `countTotalPeople` has run against the created table,
`totalPages` is `ceil (rowCount / 5)`; it is `0` for the empty table, and it
is `max 1 (ceil (rowCount / 5))` exactly when the table has at least one row. -/
theorem countTotalPeople_totalPages (r : View) (a : App) (hdb : r.db = true)
    (hc : a.world.db.created = true) (hf : a.world.faults = []) :
    ((countTotalPeople r a).view.totalPages : ℤ) = ⌈(a.world.db.rows.length : ℚ) / 5⌉ ∧
      (a.world.db.rows = [] → (countTotalPeople r a).view.totalPages = 0) ∧
      (a.world.db.rows ≠ [] →
        ((countTotalPeople r a).view.totalPages : ℤ) =
          max 1 ⌈(a.world.db.rows.length : ℚ) / 5⌉) := by
  have hq := mathCeilDiv_eq_ceil a.world.db.rows.length
  have htp : (countTotalPeople r a).view.totalPages = mathCeilDiv a.world.db.rows.length itemsPerPage := by
    rw [countTotalPeople_eq r a hdb hc hf]; rfl
  refine ⟨by rw [htp]; exact hq, ?_, ?_⟩
  · intro hrows
    rw [htp, hrows]; rfl
  · intro hrows
    have hlen : 0 < a.world.db.rows.length := List.length_pos.mpr hrows
    have hge : 1 ≤ mathCeilDiv a.world.db.rows.length itemsPerPage := by
      unfold mathCeilDiv itemsPerPage; omega
    rw [htp, ← hq]
    have : (1 : ℤ) ≤ (mathCeilDiv a.world.db.rows.length itemsPerPage : ℤ) := by exact_mod_cast hge
    exact (max_eq_right this).symm

theorem countTotalPeople_totalPages_witness :
    ((countTotalPeople (screenOn sixRows "" "" 1).view (screenOn sixRows "" "" 1)).view.totalPages : ℤ)
        = ⌈((screenOn sixRows "" "" 1).world.db.rows.length : ℚ) / 5⌉ ∧
      ((screenOn sixRows "" "" 1).world.db.rows = [] →
        (countTotalPeople (screenOn sixRows "" "" 1).view (screenOn sixRows "" "" 1)).view.totalPages = 0) ∧
      ((screenOn sixRows "" "" 1).world.db.rows ≠ [] →
        ((countTotalPeople (screenOn sixRows "" "" 1).view (screenOn sixRows "" "" 1)).view.totalPages : ℤ) =
          max 1 ⌈((screenOn sixRows "" "" 1).world.db.rows.length : ℚ) / 5⌉) :=
  countTotalPeople_totalPages (screenOn sixRows "" "" 1).view (screenOn sixRows "" "" 1)
    (by decide) (by decide) (by decide)

/-! ## C2: the validation gate -/

/-- C2: when the name is empty or the age text does not parse as an integer,
`addPerson` and `updatePerson` only show a validation alert: no statement is
executed, the table and the view are unchanged. -/
theorem validation_gate (r : View) (a : App) (h : r.name = "" ∨ parseInt r.age = none) :
    (∃ e ∈ validationAlerts,
      addPerson r a = a.alert e.title e.message ∧ updatePerson r a = a.alert e.title e.message) ∧
      (addPerson r a).world.trace = a.world.trace ∧ (addPerson r a).world.db = a.world.db ∧
      (addPerson r a).view = a.view ∧
      (updatePerson r a).world.trace = a.world.trace ∧ (updatePerson r a).world.db = a.world.db ∧
      (updatePerson r a).view = a.view := by
  by_cases h1 : r.name = "" ∨ r.age = ""
  · have ha : addPerson r a = a.alert "Error" "Por favor ingresa nombre y edad" := by
      simp [addPerson, h1]
    have hu : updatePerson r a = a.alert "Error" "Por favor ingresa nombre y edad" := by
      simp [updatePerson, h1]
    refine ⟨⟨⟨"Error", "Por favor ingresa nombre y edad"⟩, by simp [validationAlerts], ha, hu⟩, ?_⟩
    rw [ha, hu]
    simp [App.alert, World.alert]
  · have hp : parseInt r.age = none := by
      rcases h with h | h
      · exact absurd (Or.inl h) h1
      · exact h
    have ha : addPerson r a = a.alert "Error" "La edad debe ser un número" := by
      simp [addPerson, h1, hp]
    have hu : updatePerson r a = a.alert "Error" "La edad debe ser un número" := by
      simp [updatePerson, h1, hp]
    refine ⟨⟨⟨"Error", "La edad debe ser un número"⟩, by simp [validationAlerts], ha, hu⟩, ?_⟩
    rw [ha, hu]
    simp [App.alert, World.alert]

theorem validation_gate_witness :
    ((screenOn sixRows "" "30" 1).view.name = "" ∨
        parseInt (screenOn sixRows "" "30" 1).view.age = none) ∧
      (addPerson (screenOn sixRows "" "30" 1).view (screenOn sixRows "" "30" 1)).world.trace = [] ∧
      (addPerson (screenOn sixRows "Ana" "abc" 1).view (screenOn sixRows "Ana" "abc" 1)).world.trace = [] ∧
      (updatePerson (screenOn sixRows "Ana" "abc" 1).view (screenOn sixRows "Ana" "abc" 1)).world.db
        = sixRows :=
  ⟨Or.inl rfl,
    (validation_gate (screenOn sixRows "" "30" 1).view (screenOn sixRows "" "30" 1)
      (Or.inl rfl)).2.1,
    (validation_gate (screenOn sixRows "Ana" "abc" 1).view (screenOn sixRows "Ana" "abc" 1)
      (Or.inr (by decide))).2.1,
    (validation_gate (screenOn sixRows "Ana" "abc" 1).view (screenOn sixRows "Ana" "abc" 1)
      (Or.inr (by decide))).2.2.2.2.2.1⟩

/-! ## C3: one page of the listing -/

/-- C3: for a page number from `1` on, `fetchPeople` stores in `people` the
rows of the table in strictly decreasing id order, without the first
`(page - 1) * 5` of them and cut after `5`: at most five rows, all of the
table, with strictly decreasing ids. -/
theorem fetchPeople_page (r : View) (a : App) (hdb : r.db = true)
    (hc : a.world.db.created = true) (hf : a.world.faults = []) (hwf : a.world.db.WF)
    (hp : 1 ≤ r.currentPage) :
    ∃ sorted : List Person,
      sorted.Perm a.world.db.rows ∧ sorted.Pairwise (fun x y => y.id < x.id) ∧
      (fetchPeople r a).view.people = (sorted.drop ((r.currentPage - 1).toNat * 5)).take 5 ∧
      (fetchPeople r a).view.people.length ≤ 5 ∧
      (fetchPeople r a).view.people.Pairwise (fun x y => y.id < x.id) ∧
      (fetchPeople r a).world.db = a.world.db := by
  have hstrict := orderByIdDesc_strict a.world.db.rows hwf
  have hpeople : (fetchPeople r a).view.people =
      ((orderByIdDesc a.world.db.rows).drop ((r.currentPage - 1).toNat * 5)).take 5 := by
    rw [fetchPeople_eq r a hdb hc hf]
    exact listPage_eq a.world.db r.currentPage hp
  refine ⟨orderByIdDesc a.world.db.rows, orderByIdDesc_perm _, hstrict, hpeople, ?_, ?_, ?_⟩
  · rw [hpeople]; exact List.length_take_le 5 _
  · rw [hpeople]
    exact (hstrict.sublist (List.drop_sublist _ _)).sublist (List.take_sublist _ _)
  · rw [fetchPeople_eq r a hdb hc hf]

theorem fetchPeople_page_witness :
    (fetchPeople (screenOn sixRows "" "" 2).view (screenOn sixRows "" "" 2)).view.people
        = [⟨1, "Ana", 30⟩] ∧
      ∃ sorted : List Person,
        sorted.Perm (screenOn sixRows "" "" 2).world.db.rows ∧
        sorted.Pairwise (fun x y => y.id < x.id) ∧
        (fetchPeople (screenOn sixRows "" "" 2).view (screenOn sixRows "" "" 2)).view.people =
          (sorted.drop (((screenOn sixRows "" "" 2).view.currentPage - 1).toNat * 5)).take 5 ∧
        (fetchPeople (screenOn sixRows "" "" 2).view (screenOn sixRows "" "" 2)).view.people.length ≤ 5 ∧
        (fetchPeople (screenOn sixRows "" "" 2).view
          (screenOn sixRows "" "" 2)).view.people.Pairwise (fun x y => y.id < x.id) ∧
        (fetchPeople (screenOn sixRows "" "" 2).view (screenOn sixRows "" "" 2)).world.db =
          (screenOn sixRows "" "" 2).world.db :=
  ⟨by decide, fetchPeople_page (screenOn sixRows "" "" 2).view (screenOn sixRows "" "" 2)
    (by decide) (by decide) (by decide) (by decide) (by decide)⟩

/-! ## C4: insert goes back to page one -/

/-- The state `addPerson` reaches in the model when the input is valid and
the engine accepts the insert (`ageNum` is the `mathInt` of `parseInt`, the
number the code binds whenever `isExactNumber ageNum`). -/
theorem addPerson_success (r : View) (a : App) (ageNum : Int) (hdb : r.db = true)
    (hc : a.world.db.created = true) (hf : a.world.faults = []) (hname : r.name ≠ "")
    (hage : parseInt r.age = some ageNum) :
    (addPerson r a).view.currentPage = 1 ∧
      (addPerson r a).world.db =
        { a.world.db with
          rows := a.world.db.rows ++ [⟨a.world.db.nextId, r.name, ageNum⟩]
          seq := a.world.db.nextId } ∧
      (addPerson r a).view.people = listPage (addPerson r a).world.db r.currentPage ∧
      (addPerson r a).view.totalPages = countPages (addPerson r a).world.db ∧
      (addPerson r a).world.faults = [] ∧
      (addPerson r a).view.db = a.view.db ∧
      (addPerson r a).world.alerts =
        a.world.alerts ++ [⟨"Éxito", "Persona agregada correctamente"⟩] := by
  have hne : r.age ≠ "" := by
    intro h0
    have hnone : parseInt "" = none := by decide
    rw [h0, hnone] at hage
    cases hage
  have hins := executeSql_insert a.world r.name ageNum hc hf
  simp [addPerson, hname, hne, hage, hdb, App.setIsLoading, hins, App.alert, World.alert,
    fetchPeople_eq, countTotalPeople_eq, hc, hf]

/-- C4: after a successful insert the view is on page 1 and the first row of
the refreshed listing is the row just inserted (the last row added to the
table), with the fresh id, above every id of the table before, and the
given name; its age is the parsed age, stated where the parsed number is an
exact double (magnitude at most `2 ^ 53`). -/
theorem pressAdd_first_row (a : App) (ageNum : Int) (hdb : a.view.db = true)
    (hc : a.world.db.created = true) (hf : a.world.faults = []) (hname : a.view.name ≠ "")
    (hage : parseInt a.view.age = some ageNum) :
    (pressAdd a).view.currentPage = 1 ∧
      (pressAdd a).view.people.head? = (pressAdd a).world.db.rows.getLast? ∧
      (pressAdd a).world.db.rows.dropLast = a.world.db.rows ∧
      (pressAdd a).view.people.head?.map Person.id = some a.world.db.nextId ∧
      (pressAdd a).view.people.head?.map Person.name = some a.view.name ∧
      (isExactNumber ageNum →
        (pressAdd a).view.people.head? = some ⟨a.world.db.nextId, a.view.name, ageNum⟩) ∧
      (∀ p ∈ a.world.db.rows, p.id < a.world.db.nextId) ∧
      (pressAdd a).world.alerts.getLast? = some ⟨"Éxito", "Persona agregada correctamente"⟩ := by
  obtain ⟨hpage, hdb1, hpeople, -, hf1, hvdb, halerts⟩ :=
    addPerson_success a.view a ageNum hdb hc hf hname hage
  have hc1 : (addPerson a.view a).world.db.created = true := by rw [hdb1]; exact hc
  have hrows : (addPerson a.view a).world.db.rows =
      a.world.db.rows ++ [⟨a.world.db.nextId, a.view.name, ageNum⟩] := by rw [hdb1]
  have hfirst : (listPage (addPerson a.view a).world.db 1).head? =
      some ⟨a.world.db.nextId, a.view.name, ageNum⟩ := by
    rw [listPage_eq _ 1 (le_refl 1), hrows]
    simp only [sub_self, Int.toNat_zero, Nat.zero_mul, List.drop_zero, List.head?_take]
    rw [if_neg (by decide)]
    apply orderByIdDesc_head
    · simp
    · intro y hy hne
      rcases List.mem_append.mp hy with h | h
      · exact lt_nextId a.world.db y h
      · exact absurd (List.mem_singleton.mp h) hne
  have hstate : (pressAdd a).view.currentPage = 1 ∧
      (pressAdd a).view.people = listPage (addPerson a.view a).world.db 1 ∧
      (pressAdd a).world.db = (addPerson a.view a).world.db ∧
      (pressAdd a).world.alerts = (addPerson a.view a).world.alerts := by
    unfold pressAdd effectCurrentPage
    by_cases hcur : (addPerson a.view a).view.currentPage = a.view.currentPage
    · rw [if_pos hcur]
      refine ⟨hpage, ?_, rfl, rfl⟩
      rw [hpeople, ← hcur, hpage]
    · rw [if_neg hcur, fetchPeople_eq _ _ (hvdb.trans hdb) hc1 hf1]
      refine ⟨hpage, ?_, rfl, rfl⟩
      show listPage _ _ = _
      rw [hpage]
  obtain ⟨h1, h2, h3, h4⟩ := hstate
  have hhead : (pressAdd a).view.people.head? =
      some ⟨a.world.db.nextId, a.view.name, ageNum⟩ := by rw [h2]; exact hfirst
  have hrows2 : (pressAdd a).world.db.rows =
      a.world.db.rows ++ [⟨a.world.db.nextId, a.view.name, ageNum⟩] := by rw [h3]; exact hrows
  refine ⟨h1, ?_, ?_, ?_, ?_, fun _ => hhead, fun p hp => lt_nextId a.world.db p hp, ?_⟩
  · rw [hhead, hrows2, List.getLast?_concat]
  · rw [hrows2, List.dropLast_concat]
  · rw [hhead]; rfl
  · rw [hhead]; rfl
  · rw [h4, halerts]; simp

theorem pressAdd_first_row_witness :
    (pressAdd (screenOn sixRows "Gil" "27" 2)).view.people.head? = some ⟨7, "Gil", 27⟩ ∧
      (pressAdd (screenOn sixRows "Gil" "27" 2)).view.currentPage = 1 ∧
      (pressAdd (screenOn sixRows "Gil" "27" 2)).view.people.head? =
        (pressAdd (screenOn sixRows "Gil" "27" 2)).world.db.rows.getLast? :=
  ⟨(pressAdd_first_row (screenOn sixRows "Gil" "27" 2) 27 (by decide) (by decide) (by decide)
      (by decide) (by decide)).2.2.2.2.2.1 (by decide),
    (pressAdd_first_row (screenOn sixRows "Gil" "27" 2) 27 (by decide) (by decide) (by decide)
      (by decide) (by decide)).1,
    (pressAdd_first_row (screenOn sixRows "Gil" "27" 2) 27 (by decide) (by decide) (by decide)
      (by decide) (by decide)).2.1⟩

/-! ## C5: clearing the stored value -/

/-- C5 (the code at the failing input): on a fresh screen, after typing
`abc` and saving it, the store holds `abc`; `clearData` then makes no call
to the store and shows "No hay datos para eliminar.", because it tests the
display copy `storedData`, which only `loadData` fills; the following
`loadData` finds `abc` and does not report absence. -/
theorem clearData_skips_saved_value :
    (freshSecure.run [.type "abc", .save]).world.slot = some "abc" ∧
      (freshSecure.run [.type "abc", .save, .clear]).world.slot = some "abc" ∧
      (freshSecure.run [.type "abc", .save, .clear]).world.calls =
        (freshSecure.run [.type "abc", .save]).world.calls ∧
      (freshSecure.run [.type "abc", .save, .clear]).world.alerts.getLast? =
        some ⟨"Información", "No hay datos para eliminar."⟩ ∧
      (freshSecure.run [.type "abc", .save, .clear, .load]).view.storedData = "abc" ∧
      ¬ reportsAbsent (freshSecure.run [.type "abc", .save, .clear])
        (freshSecure.run [.type "abc", .save, .clear, .load]) := by
  decide

/-! ## C6: save then load -/

theorem mem_dropWhile_of_not (p : Char → Bool) (l : List Char) (c : Char) (hc : c ∈ l)
    (hp : p c = false) : c ∈ l.dropWhile p := by
  induction l with
  | nil => cases hc
  | cons x xs ih =>
    by_cases hx : p x = true
    · rw [List.dropWhile_cons_of_pos hx]
      rcases List.mem_cons.mp hc with h | h
      · rw [h, hx] at hp; cases hp
      · exact ih h
    · rw [List.dropWhile_cons_of_neg hx]
      exact hc

/-- A text with a character that is not white space survives `trim`. -/
theorem jsTrim_ne_nil (l : List Char) (h : ∃ c ∈ l, isJsWhiteSpace c = false) :
    jsTrim l ≠ [] := by
  obtain ⟨c, hc, hp⟩ := h
  have h1 : c ∈ l.dropWhile isJsWhiteSpace := mem_dropWhile_of_not _ l c hc hp
  have h2 : c ∈ (l.dropWhile isJsWhiteSpace).reverse := List.mem_reverse.mpr h1
  have h3 := mem_dropWhile_of_not isJsWhiteSpace _ c h2 hp
  have h4 : c ∈ jsTrim l := List.mem_reverse.mpr h3
  exact List.ne_nil_of_mem h4

/-- C6: whatever the screen and the store held before, typing a text `v`
with at least one character that is not white space, saving and loading, with
no call to the platform store failing, leaves `v` in the store and shows it:
`storedData = v`. -/
theorem save_load_roundtrip (a : SecureApp) (v : String)
    (hv : ∃ c ∈ v.toList, isJsWhiteSpace c = false) (hf : a.world.faults = []) :
    (a.run [.type v, .save, .load]).view.storedData = v ∧
      (a.run [.type v, .save, .load]).world.slot = some v ∧
      (a.run [.type v, .save]).world.slot = some v ∧
      (a.run [.type v, .save, .load]).world.calls = a.world.calls ++ [.setItem v, .getItem] := by
  have hne : jsTrim v.data ≠ [] := jsTrim_ne_nil v.toList hv
  simp [SecureApp.run, SecureApp.step, saveData, loadData, SecureWorld.call, hf, hne,
    SecureApp.setIsLoading, SecureApp.alert]

theorem save_load_roundtrip_witness :
    (freshSecure.run [.type " s3cret ", .save, .load]).view.storedData = " s3cret " :=
  (save_load_roundtrip freshSecure " s3cret " ⟨'s', by decide, by decide⟩ (by decide)).1

/-! ## C7: the pages partition the table -/

/-- Consecutive windows of width `k` put end to end are a prefix of the list. -/
theorem flatten_windows {α : Type} (l : List α) (k m : Nat) :
    ((List.range m).map (fun i => (l.drop (i * k)).take k)).flatten = l.take (m * k) := by
  induction m with
  | zero => simp
  | succ m ih =>
    rw [List.range_succ, List.map_append, List.flatten_append, ih, Nat.succ_mul, List.take_add]
    simp

theorem allPages_eq (r : View) (a : App) (hdb : r.db = true)
    (hc : a.world.db.created = true) (hf : a.world.faults = []) :
    allPages r a =
      (List.range (countPages a.world.db)).map
        (fun i => ((orderByIdDesc a.world.db.rows).drop (i * 5)).take 5) := by
  unfold allPages
  rw [countTotalPeople_eq r a hdb hc hf]
  apply List.map_congr_left
  intro i _
  rw [fetchPeople_eq { r with currentPage := (i : Int) + 1 } a hdb hc hf]
  show listPage a.world.db ((i : Int) + 1) = _
  rw [listPage_eq _ _ (by omega)]
  simp

/-- C7: the listings of the pages `1, ..., totalPages`, put end to end, are
the rows of the table, each exactly once, in strictly decreasing id order,
and every page before the last has exactly five rows. -/
theorem pages_cover_table (r : View) (a : App) (hdb : r.db = true)
    (hc : a.world.db.created = true) (hf : a.world.faults = []) (hwf : a.world.db.WF) :
    (allPages r a).length = (countTotalPeople r a).view.totalPages ∧
      (allPages r a).flatten.Perm a.world.db.rows ∧
      (allPages r a).flatten.Pairwise (fun x y => y.id < x.id) ∧
      ∀ page ∈ (allPages r a).dropLast, page.length = 5 := by
  have hall := allPages_eq r a hdb hc hf
  have hlen : (orderByIdDesc a.world.db.rows).length ≤ countPages a.world.db * 5 := by
    rw [orderByIdDesc_length]
    unfold countPages mathCeilDiv itemsPerPage
    omega
  have hflat : (allPages r a).flatten = orderByIdDesc a.world.db.rows := by
    rw [hall, flatten_windows, List.take_of_length_le hlen]
  refine ⟨?_, ?_, ?_, ?_⟩
  · rw [hall, countTotalPeople_eq r a hdb hc hf]; simp
  · rw [hflat]; exact orderByIdDesc_perm _
  · rw [hflat]; exact orderByIdDesc_strict _ hwf
  · intro page hpage
    rw [hall, List.dropLast_eq_take, List.length_map, List.length_range, ← List.map_take,
      List.take_range] at hpage
    obtain ⟨i, hi, rfl⟩ := List.mem_map.mp hpage
    have hi2 := List.mem_range.mp hi
    have hrows := orderByIdDesc_length a.world.db.rows
    rw [List.length_take, List.length_drop, hrows]
    have hcp : countPages a.world.db = (a.world.db.rows.length + 4) / 5 := rfl
    omega

theorem pages_cover_table_witness :
    (countTotalPeople (screenOn sixRows "" "" 1).view (screenOn sixRows "" "" 1)).view.totalPages = 2 ∧
      allPages (screenOn sixRows "" "" 1).view (screenOn sixRows "" "" 1) =
        [[⟨6, "Fito", 33⟩, ⟨5, "Eva", 19⟩, ⟨4, "Dora", 52⟩, ⟨3, "Cruz", 25⟩, ⟨2, "Ben", 41⟩],
          [⟨1, "Ana", 30⟩]] ∧
      (allPages (screenOn sixRows "" "" 1).view (screenOn sixRows "" "" 1)).flatten.Perm
        (screenOn sixRows "" "" 1).world.db.rows ∧
      ∀ page ∈ (allPages (screenOn sixRows "" "" 1).view (screenOn sixRows "" "" 1)).dropLast,
        page.length = 5 :=
  ⟨by decide, by decide,
    (pages_cover_table (screenOn sixRows "" "" 1).view (screenOn sixRows "" "" 1)
      (by decide) (by decide) (by decide) (by decide)).2.1,
    (pages_cover_table (screenOn sixRows "" "" 1).view (screenOn sixRows "" "" 1)
      (by decide) (by decide) (by decide) (by decide)).2.2.2⟩

/-! ## C8: deleting the only row of the last page -/

/-- The state `deletePerson` reaches when the deletion of a row of the table
is confirmed and the engine performs it. -/
theorem deletePerson_success (r : View) (a : App) (x : Person) (hdb : r.db = true)
    (hc : a.world.db.created = true) (hf : a.world.faults = []) (hwf : a.world.db.WF)
    (hx : x ∈ a.world.db.rows) :
    (deletePerson r x.id true a).world.db =
        { a.world.db with rows := a.world.db.rows.filter (fun p => ¬ p.id = x.id) } ∧
      (deletePerson r x.id true a).view.people =
        listPage (deletePerson r x.id true a).world.db r.currentPage ∧
      (deletePerson r x.id true a).view.totalPages =
        countPages (deletePerson r x.id true a).world.db ∧
      (deletePerson r x.id true a).view.currentPage = a.view.currentPage ∧
      (deletePerson r x.id true a).world.alerts =
        a.world.alerts ++
          [⟨"Confirmar eliminación", "¿Estás seguro de que deseas eliminar este registro?"⟩,
            ⟨"Éxito", "Registro eliminado correctamente"⟩] := by
  have hone := (filter_id_length a.world.db.rows x hwf hx).1
  simp [deletePerson, executeSql_deleteWhereId, hone, fetchPeople_eq, countTotalPeople_eq, hdb,
    hc, hf, App.setIsLoading, App.alert, World.alert]

/-- C8: when the view, with `totalPages` up to date, is on the last page and
that page holds the single row `x`, a confirmed and successful deletion of
`x` lowers `totalPages` by one, leaves `currentPage` as it was, and the
refreshed listing of that page is the empty list, under a success alert. -/
theorem pressDelete_last_page_single_row (a : App) (x : Person) (hdb : a.view.db = true)
    (hc : a.world.db.created = true) (hf : a.world.faults = []) (hwf : a.world.db.WF)
    (hsync : a.view.totalPages = countPages a.world.db)
    (hlast : a.view.currentPage = (a.view.totalPages : Int))
    (hone : listPage a.world.db a.view.currentPage = [x]) :
    (pressDelete x.id true a).view.totalPages + 1 = a.view.totalPages ∧
      (pressDelete x.id true a).view.currentPage = a.view.currentPage ∧
      (pressDelete x.id true a).view.people = [] ∧
      (pressDelete x.id true a).view.people =
        listPage (pressDelete x.id true a).world.db (pressDelete x.id true a).view.currentPage ∧
      (pressDelete x.id true a).world.alerts.getLast? =
        some ⟨"Éxito", "Registro eliminado correctamente"⟩ ∧
      (pressDelete x.id true a).world.db.rows.length + 1 = a.world.db.rows.length := by
  have hxpage : x ∈ listPage a.world.db a.view.currentPage := by rw [hone]; simp
  have hx : x ∈ a.world.db.rows := by
    apply (orderByIdDesc_perm a.world.db.rows).subset
    unfold listPage limitOffset at hxpage
    rw [if_neg (by unfold itemsPerPage; omega)] at hxpage
    exact (List.drop_sublist _ _).subset ((List.take_sublist _ _).subset hxpage)
  have hpos : 0 < a.world.db.rows.length := List.length_pos_of_mem hx
  have hcp : countPages a.world.db = (a.world.db.rows.length + 4) / 5 := rfl
  have hp : 1 ≤ a.view.currentPage := by rw [hlast, hsync, hcp]; omega
  have hcount : min 5 (a.world.db.rows.length - (a.view.currentPage - 1).toNat * 5) = 1 := by
    have h := congrArg List.length hone
    rw [listPage_eq _ _ hp, List.length_take, List.length_drop, orderByIdDesc_length] at h
    exact h
  obtain ⟨hdb1, hpeople, htotal, hpage, halerts⟩ :=
    deletePerson_success a.view a x hdb hc hf hwf hx
  have hlen := (filter_id_length a.world.db.rows x hwf hx).2
  have hrows1 : (deletePerson a.view x.id true a).world.db.rows.length + 1 =
      a.world.db.rows.length := by rw [hdb1]; exact hlen
  have hpress : pressDelete x.id true a = deletePerson a.view x.id true a := by
    unfold pressDelete effectCurrentPage
    rw [if_pos hpage]
  have hcp1 : countPages (deletePerson a.view x.id true a).world.db =
      ((deletePerson a.view x.id true a).world.db.rows.length + 4) / 5 := rfl
  have hk : ((a.view.currentPage - 1).toNat : Int) = a.view.currentPage - 1 :=
    Int.toNat_of_nonneg (by omega)
  have hempty : listPage (deletePerson a.view x.id true a).world.db a.view.currentPage = [] := by
    rw [listPage_eq _ _ hp, List.take_eq_nil_iff]
    right
    apply List.drop_eq_nil_of_le
    rw [orderByIdDesc_length]
    rw [hlast, hsync, hcp] at hk
    omega
  rw [hpress]
  refine ⟨?_, hpage, ?_, ?_, ?_, hrows1⟩
  · rw [htotal, hcp1, hsync, hcp]
    rw [hlast, hsync, hcp] at hk
    omega
  · rw [hpeople]; exact hempty
  · rw [hpeople, hpage]
  · rw [halerts]; simp

theorem pressDelete_last_page_single_row_witness :
    (pressDelete 1 true (screenOn sixRows "" "" 2)).view.totalPages = 1 ∧
      (pressDelete 1 true (screenOn sixRows "" "" 2)).view.currentPage = 2 ∧
      (pressDelete 1 true (screenOn sixRows "" "" 2)).view.people = [] :=
  have h := pressDelete_last_page_single_row (screenOn sixRows "" "" 2) ⟨1, "Ana", 30⟩
    (by decide) (by decide) (by decide) (by decide) (by decide) (by decide) (by decide)
  ⟨by decide, h.2.1, h.2.2.1⟩

/-! ## The update handler -/

/-- `updatePerson` writes neither `currentPage` nor `totalPages`, on any path. -/
theorem updatePerson_frame (r : View) (a : App) :
    (updatePerson r a).view.currentPage = a.view.currentPage ∧
      (updatePerson r a).view.totalPages = a.view.totalPages := by
  unfold updatePerson
  by_cases h1 : r.name = "" ∨ r.age = ""
  · rw [if_pos h1]; exact ⟨rfl, rfl⟩
  · rw [if_neg h1]
    cases hp : parseInt r.age with
    | none => exact ⟨rfl, rfl⟩
    | some ageNum =>
      simp only
      cases hdb : r.db with
      | false => exact ⟨rfl, rfl⟩
      | true =>
        cases he : r.editingPerson with
        | none => exact ⟨rfl, rfl⟩
        | some editing =>
          simp only
          cases hx : (a.setIsLoading true).world.executeSql (.update r.name ageNum editing.id) with
          | mk res w =>
            cases res with
            | none => exact ⟨rfl, rfl⟩
            | some result =>
              simp only
              by_cases hra : result.rowsAffected > 0
              · simp only [if_pos hra, App.setIsLoading]
                exact fetchPeople_frame r _
              · simp only [if_neg hra]
                exact ⟨rfl, rfl⟩

/-- The state `updatePerson` reaches in the model when the input is valid,
the edited row is still in the table and the engine performs the update
(`ageNum` is the `mathInt` of `parseInt`, the number the code binds whenever
`isExactNumber ageNum`). -/
theorem updatePerson_success (r : View) (a : App) (ageNum : Int) (editing : Person)
    (hdb : r.db = true) (hc : a.world.db.created = true) (hf : a.world.faults = [])
    (hname : r.name ≠ "") (hage : parseInt r.age = some ageNum)
    (hedit : r.editingPerson = some editing)
    (hrow : 0 < (a.world.db.rows.filter (fun p => p.id = editing.id)).length) :
    (updatePerson r a).world.db =
        { a.world.db with
          rows := a.world.db.rows.map
            (fun p => if p.id = editing.id then ⟨p.id, r.name, ageNum⟩ else p) } ∧
      (updatePerson r a).view.people = listPage (updatePerson r a).world.db r.currentPage ∧
      (updatePerson r a).world.alerts =
        a.world.alerts ++ [⟨"Éxito", "Registro actualizado correctamente"⟩] := by
  have hne : r.age ≠ "" := by
    intro h0
    have hnone : parseInt "" = none := by decide
    rw [h0, hnone] at hage
    cases hage
  have hupd := executeSql_update a.world r.name ageNum editing.id hc hf
  simp [updatePerson, hname, hne, hage, hdb, hedit, App.setIsLoading, hupd, hrow, App.alert,
    World.alert, fetchPeople_eq, hc, hf]

/-! ## C9: which age texts pass validation -/

theorem radixDigit_ten (c : Char) : (radixDigit 10 c).isSome = isDecimalDigit c := by
  unfold radixDigit digitValue isDecimalDigit
  by_cases h1 : 48 ≤ c.toNat ∧ c.toNat ≤ 57
  · have h3 : c.toNat - 48 < 10 := by omega
    simp [h1, h3]
  · have hrhs : (decide (48 ≤ c.toNat) && decide (c.toNat ≤ 57)) = false := by
      simpa using h1
    rw [hrhs]
    by_cases h2 : 97 ≤ c.toNat ∧ c.toNat ≤ 122
    · have h3 : ¬ (c.toNat - 97 + 10 < 10) := by omega
      simp [h1, h2, h3]
    · by_cases h5 : 65 ≤ c.toNat ∧ c.toNat ≤ 90
      · have h3 : ¬ (c.toNat - 65 + 10 < 10) := by omega
        simp [h1, h2, h5, h3]
      · simp [h1, h2, h5]

theorem radixDigit_sixteen (c : Char) : (radixDigit 16 c).isSome = isHexDigit c := by
  unfold radixDigit digitValue isHexDigit isDecimalDigit
  by_cases h1 : 48 ≤ c.toNat ∧ c.toNat ≤ 57
  · have h3 : c.toNat - 48 < 16 := by omega
    simp [h1, h3]
  · have hdec : (decide (48 ≤ c.toNat) && decide (c.toNat ≤ 57)) = false := by
      simpa using h1
    rw [hdec]
    by_cases h2 : 97 ≤ c.toNat ∧ c.toNat ≤ 122
    · have hup : (decide (65 ≤ c.toNat) && decide (c.toNat ≤ 70)) = false := by
        simp only [Bool.and_eq_false_imp, decide_eq_true_eq, decide_eq_false_iff_not]
        omega
      rw [hup]
      by_cases h6 : c.toNat ≤ 102
      · have h3 : c.toNat - 97 + 10 < 16 := by omega
        simp [h1, h2, h3, h6]
      · have h3 : ¬ (c.toNat - 97 + 10 < 16) := by omega
        simp [h1, h2, h3, h6]
    · have hlow : (decide (97 ≤ c.toNat) && decide (c.toNat ≤ 102)) = false := by
        simp only [Bool.and_eq_false_imp, decide_eq_true_eq, decide_eq_false_iff_not]
        omega
      rw [hlow]
      by_cases h5 : 65 ≤ c.toNat ∧ c.toNat ≤ 90
      · by_cases h6 : c.toNat ≤ 70
        · have h3 : c.toNat - 65 + 10 < 16 := by omega
          simp [h1, h2, h5, h3, h6]
        · have h3 : ¬ (c.toNat - 65 + 10 < 16) := by omega
          simp [h1, h2, h5, h3, h6]
      · have hup : (decide (65 ≤ c.toNat) && decide (c.toNat ≤ 70)) = false := by
          simp only [Bool.and_eq_false_imp, decide_eq_true_eq, decide_eq_false_iff_not]
          omega
        simp [h1, h2, h5, hup]

theorem digitsPrefix_cons_eq_nil (R : Nat) (c : Char) (cs : List Char) :
    digitsPrefix R (c :: cs) = [] ↔ (radixDigit R c).isSome = false := by
  unfold digitsPrefix
  cases h : radixDigit R c <;> simp

theorem parseInt_eq_none_iff (text : String) :
    parseInt text = none ↔
      digitsPrefix (stripRadixPrefix (stripSign (text.toList.dropWhile isJsWhiteSpace))).1
        (stripRadixPrefix (stripSign (text.toList.dropWhile isJsWhiteSpace))).2 = [] := by
  unfold parseInt
  simp only
  cases h : digitsPrefix (stripRadixPrefix (stripSign (text.toList.dropWhile isJsWhiteSpace))).1
      (stripRadixPrefix (stripSign (text.toList.dropWhile isJsWhiteSpace))).2 with
  | nil => simp
  | cons z zs => simp

/-- `parseInt` yields a number exactly for the texts that start with an integer. -/
theorem parseInt_isSome (text : String) : (parseInt text).isSome = startsWithInteger text := by
  have hiff := parseInt_eq_none_iff text
  have hbool : ∀ (o : Option Int) (b : Bool), (o = none ↔ b = false) → o.isSome = b := by
    intro o b h
    cases o with
    | none => exact (h.mp rfl).symm
    | some v =>
      cases b with
      | true => rfl
      | false => exact absurd (h.mpr rfl) (by simp)
  apply hbool
  rw [hiff]
  unfold startsWithInteger
  cases hT : stripSign (text.toList.dropWhile isJsWhiteSpace) with
  | nil => simp [stripRadixPrefix, digitsPrefix]
  | cons c t =>
    cases t with
    | nil =>
      simp only [stripRadixPrefix]
      rw [digitsPrefix_cons_eq_nil, radixDigit_ten]
    | cons d rest =>
      by_cases hpre : c = '0' ∧ (d = 'x' ∨ d = 'X')
      · simp only [stripRadixPrefix, if_pos hpre]
        cases rest with
        | nil => simp [digitsPrefix]
        | cons e es => rw [digitsPrefix_cons_eq_nil, radixDigit_sixteen]
      · simp only [stripRadixPrefix, if_neg hpre]
        rw [digitsPrefix_cons_eq_nil, radixDigit_ten]

/-- C9 (as stated, refuted): the age texts `12abc`, `3.7` and `0x10` are not
decimal integers, yet `addPerson` accepts them: no validation alert is
shown and a row is stored, with age `12`, `3` and `16`. -/
theorem lenient_age_texts_are_stored :
    (pressAdd (screenOn sixRows "Ana" "12abc" 1)).world.db.rows.getLast? = some ⟨7, "Ana", 12⟩ ∧
      (pressAdd (screenOn sixRows "Ana" "12abc" 1)).world.alerts =
        [⟨"Éxito", "Persona agregada correctamente"⟩] ∧
      (pressAdd (screenOn sixRows "Ana" "3.7" 1)).world.db.rows.getLast? = some ⟨7, "Ana", 3⟩ ∧
      (pressAdd (screenOn sixRows "Ana" "3.7" 1)).world.alerts =
        [⟨"Éxito", "Persona agregada correctamente"⟩] ∧
      (pressAdd (screenOn sixRows "Ana" "0x10" 1)).world.db.rows.getLast? = some ⟨7, "Ana", 16⟩ ∧
      (pressAdd (screenOn sixRows "Ana" "0x10" 1)).world.alerts =
        [⟨"Éxito", "Persona agregada correctamente"⟩] := by
  decide

/-- C9 (amended): with a name given, an age text passes the validation of
`addPerson` and of `updatePerson` exactly when it starts with an integer:
after leading white space and one optional sign it either begins with `0x`
or `0X` and a hexadecimal digit follows that prefix, or it has no such
prefix and begins with a decimal digit.  Every other age text gets a
validation alert from both handlers and nothing is executed or stored.  A
text that starts with an integer passes, whatever follows the integer: the
insert adds one row and the update of an existing row succeeds, and where
the leading integer is an exact double (magnitude at most `2 ^ 53`) it is
the age that is stored. -/
theorem age_validation_rule (r : View) (a : App) (hname : r.name ≠ "") (hdb : r.db = true)
    (hc : a.world.db.created = true) (hf : a.world.faults = []) :
    (startsWithInteger r.age = false →
        (∃ e ∈ validationAlerts,
          addPerson r a = a.alert e.title e.message ∧
            updatePerson r a = a.alert e.title e.message) ∧
        (addPerson r a).world.trace = a.world.trace ∧ (addPerson r a).world.db = a.world.db ∧
        (updatePerson r a).world.trace = a.world.trace ∧
        (updatePerson r a).world.db = a.world.db) ∧
      (startsWithInteger r.age = true →
        ∃ ageNum, parseInt r.age = some ageNum ∧
          (addPerson r a).world.alerts =
            a.world.alerts ++ [⟨"Éxito", "Persona agregada correctamente"⟩] ∧
          (addPerson r a).world.db.rows.length = a.world.db.rows.length + 1 ∧
          (isExactNumber ageNum →
            (addPerson r a).world.db.rows =
              a.world.db.rows ++ [⟨a.world.db.nextId, r.name, ageNum⟩]) ∧
          ∀ editing : Person, r.editingPerson = some editing →
            (∃ p ∈ a.world.db.rows, p.id = editing.id) →
            (updatePerson r a).world.alerts =
                a.world.alerts ++ [⟨"Éxito", "Registro actualizado correctamente"⟩] ∧
              (isExactNumber ageNum →
                (updatePerson r a).world.db.rows = a.world.db.rows.map
                  (fun p => if p.id = editing.id then ⟨p.id, r.name, ageNum⟩ else p))) := by
  have hsome := parseInt_isSome r.age
  constructor
  · intro hno
    rw [hno] at hsome
    have hnone : parseInt r.age = none := by
      cases hp : parseInt r.age with
      | none => rfl
      | some v => rw [hp] at hsome; cases hsome
    by_cases hage : r.age = ""
    · have ha : addPerson r a = a.alert "Error" "Por favor ingresa nombre y edad" := by
        simp [addPerson, hage]
      have hu : updatePerson r a = a.alert "Error" "Por favor ingresa nombre y edad" := by
        simp [updatePerson, hage]
      refine ⟨⟨⟨"Error", "Por favor ingresa nombre y edad"⟩, by simp [validationAlerts], ha, hu⟩, ?_⟩
      rw [ha, hu]
      simp [App.alert, World.alert]
    · have ha : addPerson r a = a.alert "Error" "La edad debe ser un número" := by
        simp [addPerson, hname, hage, hnone]
      have hu : updatePerson r a = a.alert "Error" "La edad debe ser un número" := by
        simp [updatePerson, hname, hage, hnone]
      refine ⟨⟨⟨"Error", "La edad debe ser un número"⟩, by simp [validationAlerts], ha, hu⟩, ?_⟩
      rw [ha, hu]
      simp [App.alert, World.alert]
  · intro hyes
    rw [hyes] at hsome
    cases hp : parseInt r.age with
    | none => rw [hp] at hsome; cases hsome
    | some ageNum =>
      obtain ⟨-, hdb1, -, -, -, -, halerts⟩ := addPerson_success r a ageNum hdb hc hf hname hp
      have hrows : (addPerson r a).world.db.rows =
          a.world.db.rows ++ [⟨a.world.db.nextId, r.name, ageNum⟩] := by rw [hdb1]
      refine ⟨ageNum, rfl, halerts, ?_, fun _ => hrows, ?_⟩
      · rw [hrows]; simp
      · intro editing hedit hex
        have hrow : 0 < (a.world.db.rows.filter (fun p => p.id = editing.id)).length := by
          obtain ⟨p, hpm, hpid⟩ := hex
          apply List.length_pos_of_mem (a := p)
          exact List.mem_filter.mpr ⟨hpm, by simpa using hpid⟩
        obtain ⟨hdb2, -, halerts2⟩ :=
          updatePerson_success r a ageNum editing hdb hc hf hname hp hedit hrow
        exact ⟨halerts2, fun _ => by rw [hdb2]⟩

theorem age_validation_rule_witness :
    startsWithInteger (editingOn sixRows ⟨1, "Ana", 30⟩ "Ana" "12abc" 1).view.age = true ∧
      startsWithInteger (editingOn sixRows ⟨1, "Ana", 30⟩ "Ana" "0xg" 1).view.age = false ∧
      (addPerson (editingOn sixRows ⟨1, "Ana", 30⟩ "Ana" "0xg" 1).view
        (editingOn sixRows ⟨1, "Ana", 30⟩ "Ana" "0xg" 1)).world.db = sixRows ∧
      (updatePerson (editingOn sixRows ⟨1, "Ana", 30⟩ "Ana" "0xg" 1).view
        (editingOn sixRows ⟨1, "Ana", 30⟩ "Ana" "0xg" 1)).world.trace = [] ∧
      ∃ ageNum, parseInt (editingOn sixRows ⟨1, "Ana", 30⟩ "Ana" "12abc" 1).view.age = some ageNum ∧
        (addPerson (editingOn sixRows ⟨1, "Ana", 30⟩ "Ana" "12abc" 1).view
            (editingOn sixRows ⟨1, "Ana", 30⟩ "Ana" "12abc" 1)).world.db.rows.length =
          (editingOn sixRows ⟨1, "Ana", 30⟩ "Ana" "12abc" 1).world.db.rows.length + 1 :=
  ⟨by decide, by decide,
    ((age_validation_rule (editingOn sixRows ⟨1, "Ana", 30⟩ "Ana" "0xg" 1).view
      (editingOn sixRows ⟨1, "Ana", 30⟩ "Ana" "0xg" 1) (by decide) (by decide) (by decide)
      (by decide)).1 (by decide)).2.2.1,
    ((age_validation_rule (editingOn sixRows ⟨1, "Ana", 30⟩ "Ana" "0xg" 1).view
      (editingOn sixRows ⟨1, "Ana", 30⟩ "Ana" "0xg" 1) (by decide) (by decide) (by decide)
      (by decide)).1 (by decide)).2.2.2.1,
    (((age_validation_rule (editingOn sixRows ⟨1, "Ana", 30⟩ "Ana" "12abc" 1).view
      (editingOn sixRows ⟨1, "Ana", 30⟩ "Ana" "12abc" 1) (by decide) (by decide) (by decide)
      (by decide)).2 (by decide)).imp (fun _ h => ⟨h.1, h.2.2.1⟩))⟩

/-! ## C10: update keeps the page -/

/-- C10: `updatePerson` (and the re-render after it) leaves `currentPage` and
`totalPages` as they were, on every path; when the update succeeds, the
listing becomes the current page of the updated table, which has the same
ids as before; the edited row carries the given name and, where the parsed
number is an exact double (magnitude at most `2 ^ 53`), the parsed age. -/
theorem pressUpdate_keeps_page (a : App) :
    (pressUpdate a).view.currentPage = a.view.currentPage ∧
      (pressUpdate a).view.totalPages = a.view.totalPages ∧
      ∀ (ageNum : Int) (editing : Person), a.view.db = true → a.world.db.created = true →
        a.world.faults = [] → a.view.name ≠ "" → parseInt a.view.age = some ageNum →
        a.view.editingPerson = some editing → (∃ p ∈ a.world.db.rows, p.id = editing.id) →
        (pressUpdate a).view.people = listPage (pressUpdate a).world.db a.view.currentPage ∧
          (pressUpdate a).world.db.rows.map Person.id = a.world.db.rows.map Person.id ∧
          (pressUpdate a).world.alerts.getLast? =
            some ⟨"Éxito", "Registro actualizado correctamente"⟩ ∧
          (isExactNumber ageNum →
            (pressUpdate a).world.db.rows = a.world.db.rows.map
              (fun p => if p.id = editing.id then ⟨p.id, a.view.name, ageNum⟩ else p)) := by
  obtain ⟨hpage, htotal⟩ := updatePerson_frame a.view a
  have hpress : pressUpdate a = updatePerson a.view a := by
    unfold pressUpdate effectCurrentPage
    rw [if_pos hpage]
  rw [hpress]
  refine ⟨hpage, htotal, ?_⟩
  intro ageNum editing hdb hc hf hname hage hedit hex
  have hrow : 0 < (a.world.db.rows.filter (fun p => p.id = editing.id)).length := by
    obtain ⟨p, hp, hpid⟩ := hex
    apply List.length_pos_of_mem (a := p)
    exact List.mem_filter.mpr ⟨hp, by simpa using hpid⟩
  obtain ⟨hdb1, hpeople, halerts⟩ :=
    updatePerson_success a.view a ageNum editing hdb hc hf hname hage hedit hrow
  have hrows : (updatePerson a.view a).world.db.rows = a.world.db.rows.map
      (fun p => if p.id = editing.id then ⟨p.id, a.view.name, ageNum⟩ else p) := by rw [hdb1]
  refine ⟨hpeople, ?_, ?_, fun _ => hrows⟩
  · rw [hrows, List.map_map]
    apply List.map_congr_left
    intro p _
    by_cases hp : p.id = editing.id <;> simp [hp]
  · rw [halerts]; simp

theorem pressUpdate_keeps_page_witness :
    (pressUpdate (editingOn sixRows ⟨1, "Ana", 30⟩ "Anna" "31" 2)).view.currentPage = 2 ∧
      (pressUpdate (editingOn sixRows ⟨1, "Ana", 30⟩ "Anna" "31" 2)).view.totalPages = 2 ∧
      (pressUpdate (editingOn sixRows ⟨1, "Ana", 30⟩ "Anna" "31" 2)).view.people =
        [⟨1, "Anna", 31⟩] ∧
      (pressUpdate (editingOn sixRows ⟨1, "Ana", 30⟩ "Anna" "31" 2)).view.people =
        listPage (pressUpdate (editingOn sixRows ⟨1, "Ana", 30⟩ "Anna" "31" 2)).world.db
          (editingOn sixRows ⟨1, "Ana", 30⟩ "Anna" "31" 2).view.currentPage :=
  ⟨(pressUpdate_keeps_page (editingOn sixRows ⟨1, "Ana", 30⟩ "Anna" "31" 2)).1,
    (pressUpdate_keeps_page (editingOn sixRows ⟨1, "Ana", 30⟩ "Anna" "31" 2)).2.1,
    by decide,
    ((pressUpdate_keeps_page (editingOn sixRows ⟨1, "Ana", 30⟩ "Anna" "31" 2)).2.2 31
      ⟨1, "Ana", 30⟩ (by decide) (by decide) (by decide) (by decide) (by decide) (by decide)
      ⟨⟨1, "Ana", 30⟩, by decide, rfl⟩).1⟩

/-! ## C11: saving an empty or blank text -/

/-- A text made of white space only is trimmed to the empty text. -/
theorem jsTrim_eq_nil (l : List Char) (h : ∀ c ∈ l, isJsWhiteSpace c = true) :
    jsTrim l = [] := by
  have h1 : l.dropWhile isJsWhiteSpace = [] := List.dropWhile_eq_nil_iff.mpr h
  unfold jsTrim
  rw [h1]
  rfl

/-- C11: for every text that is empty or made of white space only, typed
into the field from any state of the screen and the store, `saveData` shows
the validation alert and does nothing else: no call reaches the store, the
stored value and `tempData` (and the rest of the view) are as before. -/
theorem saveData_blank_is_noop (a : SecureApp) (v : String)
    (hv : ∀ c ∈ v.toList, isJsWhiteSpace c = true) :
    (a.run [.type v, .save]).world.alerts =
        a.world.alerts ++ [⟨"Error", "Por favor ingresa un dato antes de guardar."⟩] ∧
      (a.run [.type v, .save]).world.calls = a.world.calls ∧
      (a.run [.type v, .save]).world.slot = a.world.slot ∧
      (a.run [.type v, .save]).view.tempData = a.view.tempData ∧
      (a.run [.type v, .save]).view = (a.run [.type v]).view := by
  have hnil : jsTrim v.data = [] := jsTrim_eq_nil v.toList hv
  simp [SecureApp.run, SecureApp.step, saveData, hnil, SecureApp.alert]

theorem saveData_blank_is_noop_witness :
    (∀ c ∈ " \t\n".toList, isJsWhiteSpace c = true) ∧
      ((freshSecure.run [.type "abc", .save]).run [.type " \t\n", .save]).world.slot =
        (freshSecure.run [.type "abc", .save]).world.slot ∧
      ((freshSecure.run [.type "abc", .save]).run [.type " \t\n", .save]).view.tempData =
        (freshSecure.run [.type "abc", .save]).view.tempData ∧
      ((freshSecure.run [.type "abc", .save]).run [.type "", .save]).world.calls =
        (freshSecure.run [.type "abc", .save]).world.calls :=
  ⟨by decide,
    (saveData_blank_is_noop (freshSecure.run [.type "abc", .save]) " \t\n" (by decide)).2.2.1,
    (saveData_blank_is_noop (freshSecure.run [.type "abc", .save]) " \t\n" (by decide)).2.2.2.1,
    (saveData_blank_is_noop (freshSecure.run [.type "abc", .save]) "" (by decide)).2.1⟩

/-! ## C12: the initial load -/

/-- The mount effects run with the closures of the first render, in which
the handle `db` is still `null`: whatever the database holds and whether or
not the bootstrap statement succeeds, only that statement is executed and
the listing and the page count keep their initial values. -/
theorem mount_loads_nothing (w : World) :
    (mount w).view.people = [] ∧ (mount w).view.totalPages = 1 ∧
      (mount w).world.trace = w.trace ++ [.createTable] ∧ (mount w).view.db = true := by
  unfold mount
  have hfetch : ∀ a : App, fetchPeople View.initial a = a := by
    intro a; simp [fetchPeople, View.initial]
  have hcount : ∀ a : App, countTotalPeople View.initial a = a := by
    intro a; simp [countTotalPeople, View.initial]
  simp only [hfetch, hcount]
  cases h : w.executeSql .createTable with
  | mk res w1 =>
    have htrace : w1.trace = w.trace ++ [.createTable] := by
      unfold World.executeSql at h
      by_cases hfault : w.faults.head? = some true
      · simp only [hfault, if_true, Prod.mk.injEq] at h
        rw [← h.2]
      · simp only [hfault, if_false, Database.run, Prod.mk.injEq] at h
        rw [← h.2]
    cases res with
    | none => exact ⟨rfl, rfl, htrace, rfl⟩
    | some rs => exact ⟨rfl, rfl, htrace, rfl⟩

/-- C12 (the code at the failing input): on a database that already holds
six rows the bootstrap statement succeeds, yet after the mount effects the
listing is empty and `totalPages` is still `1`, while page 1 of the table
has five rows and the row count gives two pages; no listing or count query
was executed.  The listing only appears after a user action such as
"Actualizar Lista". -/
theorem mount_on_six_rows :
    (mount { db := sixRows, trace := [], alerts := [], faults := [] }).world.trace =
        [.createTable] ∧
      (mount { db := sixRows, trace := [], alerts := [], faults := [] }).view.db = true ∧
      (mount { db := sixRows, trace := [], alerts := [], faults := [] }).view.people = [] ∧
      (listPage sixRows 1).length = 5 ∧
      (mount { db := sixRows, trace := [], alerts := [], faults := [] }).view.totalPages = 1 ∧
      countPages sixRows = 2 ∧
      (pressRefresh (mount { db := sixRows, trace := [], alerts := [], faults := [] })).view.people =
        listPage sixRows 1 := by
  decide

end NavigationData
